import Mathlib

/-!
Verification development for the `CreateCustomFolder` repository
(`CreateCustomFolder.py`).

The program reads a legend spreadsheet into a dataframe and scans its
second column for category markers, collecting value runs per category
(`read_legend`), and joins user selections with time and server tokens
into a folder name (`create_folder`).

Modelling choices:
  * A spreadsheet cell is `Option String`: `none` is a missing value
    (pandas `NaN`), `some s` a string cell.  Non-string scalar cells are
    represented by their string rendering, which is what every use site
    of the Python code observes (`str(v)`), except the raw comparison
    `v != "?"` and the `isinstance(v, str)` test in the abbreviation
    search; a numeric cell can render neither to `"?"` nor to
    `"Abbreviation"`, so representing it by its rendering is faithful.
  * The dataframe after `reset_index(drop=True)` is a rectangular table:
    a column count `ncols` plus the data rows (the header row is consumed
    by `pd.read_excel` and is not part of the data).  Cell access
    `df.at[i, col]` becomes positional list access; an out-of-range
    access yields `none`, which for rectangular pandas data never fires.
  * `results` (a Python `dict`) is an association list; assignment
    `results[k] = v` replaces the value in place when the key exists and
    appends otherwise, like insertion-ordered Python dicts.
  * Filesystem effects (`os.makedirs`) and the Streamlit shell are I/O
    glue outside the extracted functions; `create_folder`'s computed
    folder name is modelled as `create_folder_name`.
-/

/-- A spreadsheet cell: missing (`NaN`) or a string value. -/
abbrev Cell := Option String

/-- Python `str.strip()`: remove leading and trailing whitespace.  (The
modelled strings are ASCII, where Python and Lean whitespace agree.) -/
def pyStrip (s : String) : String :=
  String.mk (((s.data.dropWhile Char.isWhitespace).reverse.dropWhile Char.isWhitespace).reverse)

/-- `str(cell).strip() if pd.notna(cell) else ""` (line 37 of the source). -/
def cellToStr (c : Cell) : String :=
  match c with
  | none => ""
  | some s => pyStrip s

/-- `TARGET_WITH_ABBREVIATION` (source line 9). -/
def TARGET_WITH_ABBREVIATION : List String :=
  ["Frame Version", "Core Version", "Gasket Version", "Pump"]

/-- `SECOND_BLANK_STOP` (source line 10). -/
def SECOND_BLANK_STOP : List String :=
  ["Frame Version", "Core Version", "Gasket Version"]

/-- `FIRST_BLANK_STOP` (source line 11). -/
def FIRST_BLANK_STOP : List String :=
  ["Device Name", "Coolant", "Pump"]

/-- `TARGET_WITHOUT_ABBREVIATION` (source line 12). -/
def TARGET_WITHOUT_ABBREVIATION : List String :=
  ["Device Name", "Coolant"]

/-- `SKIP` (source line 13). -/
def SKIP : List String :=
  ["OCCT Version", "OCCT Test Setting", "Fan Settings", "CPU model"]

/-- The predicate of the abbreviation-header search (source line 47):
`isinstance(v, str) and v.strip() in {"Abbreviation", "Abbrevation"}`. -/
def isAbbrevHeader (c : Cell) : Bool :=
  match c with
  | none => false
  | some v => pyStrip v == "Abbreviation" || pyStrip v == "Abbrevation"

/-- The generator expression on lines 46-49 of the source: index of the
first cell of the marker row whose trimmed string is an abbreviation
header, `none` when there is no such cell. -/
def abbrevIndex? (row : List Cell) : Option Nat :=
  row.findIdx? isAbbrevHeader

/-- The inner `while j < n` scan (source lines 56-66) as a pure function
of the value-column cells strictly after the marker row.  Returns the
collected values and the number of cells the scan consumed, i.e.
`j - (i + 1)` at the `break` / loop exit; a stopping blank cell is not
consumed. -/
def scanRun (cat : String) : List Cell → Nat → List String × Nat
  | [], _ => ([], 0)
  | c :: rest, blankSeen =>
    if cellToStr c = "" then
      if (blankSeen + 1 = 2 ∧ cat ∈ SECOND_BLANK_STOP) ∨ cat ∈ FIRST_BLANK_STOP then
        ([], 0)
      else
        let r := scanRun cat rest (blankSeen + 1)
        (r.1, r.2 + 1)
    else
      if c.getD "" = "?" then
        let r := scanRun cat rest blankSeen
        (r.1, r.2 + 1)
      else
        let r := scanRun cat rest blankSeen
        (pyStrip (c.getD "") :: r.1, r.2 + 1)

/-- Python dict assignment `results[current_cat] = vals` on an
insertion-ordered association list: replace in place if the key is
present, append otherwise. -/
def dictInsert (d : List (String × List String)) (k : String) (v : List String) :
    List (String × List String) :=
  match d with
  | [] => [(k, v)]
  | (k', v') :: rest => if k' = k then (k, v) :: rest else (k', v') :: dictInsert rest k v

/-- A parsed dataframe: column count and data rows. -/
structure Table where
  ncols : Nat
  rows : List (List Cell)

/-- The outer `while i < n` loop of `read_legend` (source lines 35-76).
`i` is the absolute row index (used only for the error message), `rows`
the rows from index `i` on, and `acc` the `results` dict so far. -/
def readLegendLoop (i : Nat) (rows : List (List Cell))
    (acc : List (String × List String)) : Except String (List (String × List String)) :=
  match rows with
  | [] => .ok acc
  | row :: rest =>
    let cellStr := cellToStr (row.getD 1 none)
    if cellStr ∈ TARGET_WITH_ABBREVIATION ∨ cellStr ∈ TARGET_WITHOUT_ABBREVIATION then
      if cellStr ∈ TARGET_WITH_ABBREVIATION then
        match abbrevIndex? row with
        | none => .error ("No 'Abbreviation' column found in row " ++ toString i ++ ".")
        | some useCol =>
          let r := scanRun cellStr (rest.map fun rw => rw.getD useCol none) 0
          readLegendLoop (i + 1 + r.2) (rest.drop r.2) (dictInsert acc cellStr r.1)
      else
        let r := scanRun cellStr (rest.map fun rw => rw.getD 1 none) 0
        readLegendLoop (i + 1 + r.2) (rest.drop r.2) (dictInsert acc cellStr r.1)
    else if cellStr ∈ SKIP then
      readLegendLoop (i + 1) rest acc
    else
      readLegendLoop (i + 1) rest acc
termination_by rows.length
decreasing_by
  all_goals simp only [List.length_cons, List.length_drop]
  all_goals omega

/-- `read_legend` (source lines 19-78), starting after the dataframe has
been loaded: the column-count guard (lines 28-29) and the scan. -/
def read_legend (t : Table) : Except String (List (String × List String)) :=
  if t.ncols < 2 then
    .error "Sheet must have at least two columns (A and B)."
  else
    readLegendLoop 0 t.rows []

/-- The folder name computed by `create_folder` (source line 82):
`"_".join(selections + [time_str.strip(), server_str.strip()])`. -/
def create_folder_name (selections : List String) (time_str server_str : String) : String :=
  String.intercalate "_" (selections ++ [pyStrip time_str, pyStrip server_str])

/-- Fuel-bounded variant of `readLegendLoop`, structurally recursive in
the fuel.  One unit of fuel pays for one outer-loop iteration; `none`
means the fuel ran out.  Used to state (and prove) that the outer loop
terminates within `rows.length + 1` iterations because its cursor
strictly advances, and to evaluate `readLegendLoop` on concrete tables. -/
def readLegendLoopFuel : Nat → Nat → List (List Cell) → List (String × List String) →
    Option (Except String (List (String × List String)))
  | 0, _, _, _ => none
  | fuel + 1, i, rows, acc =>
    match rows with
    | [] => some (.ok acc)
    | row :: rest =>
      let cellStr := cellToStr (row.getD 1 none)
      if cellStr ∈ TARGET_WITH_ABBREVIATION ∨ cellStr ∈ TARGET_WITHOUT_ABBREVIATION then
        if cellStr ∈ TARGET_WITH_ABBREVIATION then
          match abbrevIndex? row with
          | none => some (.error ("No 'Abbreviation' column found in row " ++ toString i ++ "."))
          | some useCol =>
            let r := scanRun cellStr (rest.map fun rw => rw.getD useCol none) 0
            readLegendLoopFuel fuel (i + 1 + r.2) (rest.drop r.2) (dictInsert acc cellStr r.1)
        else
          let r := scanRun cellStr (rest.map fun rw => rw.getD 1 none) 0
          readLegendLoopFuel fuel (i + 1 + r.2) (rest.drop r.2) (dictInsert acc cellStr r.1)
      else if cellStr ∈ SKIP then
        readLegendLoopFuel fuel (i + 1) rest acc
      else
        readLegendLoopFuel fuel (i + 1) rest acc

/-- Any fuel exceeding the row count is enough: the fuel-bounded loop
agrees with `readLegendLoop`. -/
theorem readLegendLoopFuel_eq (fuel : Nat) : ∀ (rows : List (List Cell)) (i : Nat)
    (acc : List (String × List String)), rows.length < fuel →
    readLegendLoopFuel fuel i rows acc = some (readLegendLoop i rows acc) := by
  induction fuel with
  | zero => intro rows i acc h; omega
  | succ fuel ih =>
    intro rows i acc h
    match rows with
    | [] => simp [readLegendLoopFuel, readLegendLoop]
    | row :: rest =>
      rw [readLegendLoopFuel, readLegendLoop]
      simp only [List.length_cons] at h
      split
      · split
        · split
          · rfl
          · exact ih _ _ _ (by simp [List.length_drop]; omega)
        · exact ih _ _ _ (by simp [List.length_drop]; omega)
      · split
        · exact ih _ _ _ (by omega)
        · exact ih _ _ _ (by omega)

/-- Concrete evaluation principle for the outer loop: a run of the
fuel-bounded loop with adequate fuel determines `readLegendLoop`. -/
theorem readLegendLoop_eval (i : Nat) (rows : List (List Cell))
    (acc : List (String × List String)) (res : Except String (List (String × List String)))
    (h : readLegendLoopFuel (rows.length + 1) i rows acc = some res) :
    readLegendLoop i rows acc = res := by
  have h2 := readLegendLoopFuel_eq (rows.length + 1) rows i acc (by omega)
  rw [h] at h2
  exact (Option.some_injective _ h2).symm

/-- Specification helper: the values the inner scan collects from a
stretch of cells it passes through, namely the stripped renderings of
the non-blank cells other than the raw literal `"?"`. -/
def collectVals (cells : List Cell) : List String :=
  cells.filterMap fun c =>
    if cellToStr c = "" then none
    else if c.getD "" = "?" then none
    else some (pyStrip (c.getD ""))

/-- The inner scan passes through a blank-free stretch of cells: it
collects their values, consumes all of them, and keeps its blank counter
unchanged for whatever follows. -/
theorem scanRun_nonblank_stretch (cat : String) (vs : List Cell)
    (h : ∀ c ∈ vs, cellToStr c ≠ "") (rest : List Cell) (b : Nat) :
    scanRun cat (vs ++ rest) b =
      (collectVals vs ++ (scanRun cat rest b).1, vs.length + (scanRun cat rest b).2) := by
  induction vs with
  | nil => simp [collectVals]
  | cons c vs ih =>
    have hc : cellToStr c ≠ "" := h c (by simp)
    have hrest : ∀ x ∈ vs, cellToStr x ≠ "" := fun x hx => h x (by simp [hx])
    by_cases hq : c.getD "" = "?"
    · simp [scanRun, hc, hq, collectVals, ih hrest]
      omega
    · simp [scanRun, hc, hq, collectVals, ih hrest]
      omega

/-- A blank cell that does not trigger the stopping condition: the scan
consumes it and continues with the blank counter incremented. -/
theorem scanRun_blank_cont (cat : String) (c : Cell) (rest : List Cell) (b : Nat)
    (hb : cellToStr c = "")
    (hstop : ¬ ((b + 1 = 2 ∧ cat ∈ SECOND_BLANK_STOP) ∨ cat ∈ FIRST_BLANK_STOP)) :
    scanRun cat (c :: rest) b =
      ((scanRun cat rest (b + 1)).1, (scanRun cat rest (b + 1)).2 + 1) := by
  simp only [scanRun]
  rw [if_pos hb, if_neg hstop]

/-- A blank cell that triggers the stopping condition ends the scan
without consuming the blank cell. -/
theorem scanRun_blank_stop (cat : String) (c : Cell) (rest : List Cell) (b : Nat)
    (hb : cellToStr c = "")
    (hstop : (b + 1 = 2 ∧ cat ∈ SECOND_BLANK_STOP) ∨ cat ∈ FIRST_BLANK_STOP) :
    scanRun cat (c :: rest) b = ([], 0) := by
  simp only [scanRun]
  rw [if_pos hb, if_pos hstop]

/-- The second-blank-stop and first-blank-stop category sets are
disjoint. -/
theorem second_blank_not_first (cat : String) (h : cat ∈ SECOND_BLANK_STOP) :
    cat ∉ FIRST_BLANK_STOP := by
  simp only [SECOND_BLANK_STOP, List.mem_cons, List.not_mem_nil, or_false] at h
  rcases h with rfl | rfl | rfl <;> decide

/-- C3: for every category in the second-blank-stop set, a run ends
exactly when the cumulative blank count reaches 2.  With blank-free
stretches `vs1` and `vs2`: a blank, then values, then a second blank
terminates the run at the second blank (nothing after it is collected
or consumed, so the counter was not reset by the intervening values),
while a single blank followed only by values to the end of the table
does not terminate the run early (everything is consumed). -/
theorem claim_C3_second_blank_cumulative (cat : String) (h : cat ∈ SECOND_BLANK_STOP)
    (vs1 vs2 vs3 : List Cell) (b1 b2 : Cell)
    (h1 : ∀ c ∈ vs1, cellToStr c ≠ "") (h2 : ∀ c ∈ vs2, cellToStr c ≠ "")
    (hb1 : cellToStr b1 = "") (hb2 : cellToStr b2 = "") :
    scanRun cat (vs1 ++ b1 :: (vs2 ++ b2 :: vs3)) 0 =
      (collectVals vs1 ++ collectVals vs2, vs1.length + 1 + vs2.length)
    ∧ scanRun cat (vs1 ++ b1 :: vs2) 0 =
      (collectVals vs1 ++ collectVals vs2, vs1.length + 1 + vs2.length) := by
  have hnf : cat ∉ FIRST_BLANK_STOP := second_blank_not_first cat h
  have hcont : ¬ ((0 + 1 = 2 ∧ cat ∈ SECOND_BLANK_STOP) ∨ cat ∈ FIRST_BLANK_STOP) := by
    rintro (⟨habs, _⟩ | habs)
    · omega
    · exact hnf habs
  constructor
  · rw [scanRun_nonblank_stretch cat vs1 h1,
      scanRun_blank_cont cat b1 (vs2 ++ b2 :: vs3) 0 hb1 hcont,
      scanRun_nonblank_stretch cat vs2 h2,
      scanRun_blank_stop cat b2 vs3 1 hb2 (Or.inl ⟨rfl, h⟩)]
    simp
    omega
  · rw [scanRun_nonblank_stretch cat vs1 h1,
      scanRun_blank_cont cat b1 vs2 0 hb1 hcont]
    have hend : scanRun cat (vs2 ++ ([] : List Cell)) 1 =
        (collectVals vs2 ++ (scanRun cat [] 1).1, vs2.length + (scanRun cat [] 1).2) :=
      scanRun_nonblank_stretch cat vs2 h2 [] 1
    simp only [List.append_nil] at hend
    rw [hend]
    simp [scanRun]
    omega

/-- Witness for C3 at a concrete second-blank-stop run. -/
theorem claim_C3_witness :
    scanRun "Frame Version"
        (([some "a"] : List Cell) ++ none :: (([some "b"] : List Cell) ++ some " " :: [some "c"])) 0 =
      (collectVals [some "a"] ++ collectVals [some "b"],
        ([some "a"] : List Cell).length + 1 + ([some "b"] : List Cell).length)
    ∧ scanRun "Frame Version" (([some "a"] : List Cell) ++ none :: [some "b"]) 0 =
      (collectVals [some "a"] ++ collectVals [some "b"],
        ([some "a"] : List Cell).length + 1 + ([some "b"] : List Cell).length) :=
  claim_C3_second_blank_cumulative "Frame Version" (by decide) [some "a"] [some "b"]
    [some "c"] none (some " ") (by decide) (by decide) (by decide) (by decide)

/-- C4: for every category in the first-blank-stop set, the inner scan
stops at the first blank cell of the value column after the marker row,
collecting exactly the stretch of values before it (non-blank, non-`"?"`
cells, stripped); with no blank the scan runs to the end of the table. -/
theorem claim_C4_first_blank_stop (cat : String) (h : cat ∈ FIRST_BLANK_STOP)
    (vs rest : List Cell) (bc : Cell)
    (h1 : ∀ c ∈ vs, cellToStr c ≠ "") (hb : cellToStr bc = "") :
    scanRun cat (vs ++ bc :: rest) 0 = (collectVals vs, vs.length)
    ∧ scanRun cat vs 0 = (collectVals vs, vs.length) := by
  constructor
  · rw [scanRun_nonblank_stretch cat vs h1,
      scanRun_blank_stop cat bc rest 0 hb (Or.inr h)]
    simp
  · have hend : scanRun cat (vs ++ ([] : List Cell)) 0 =
        (collectVals vs ++ (scanRun cat [] 0).1, vs.length + (scanRun cat [] 0).2) :=
      scanRun_nonblank_stretch cat vs h1 [] 0
    simp only [List.append_nil] at hend
    rw [hend]
    simp [scanRun]

/-- Witness for C4 at a concrete first-blank-stop run. -/
theorem claim_C4_witness :
    scanRun "Coolant" (([some "X", some "?", some "Y"] : List Cell) ++ some "" :: [some "Z"]) 0 =
      (collectVals [some "X", some "?", some "Y"],
        ([some "X", some "?", some "Y"] : List Cell).length)
    ∧ scanRun "Coolant" ([some "X", some "?", some "Y"] : List Cell) 0 =
      (collectVals [some "X", some "?", some "Y"],
        ([some "X", some "?", some "Y"] : List Cell).length) :=
  claim_C4_first_blank_stop "Coolant" (by decide) [some "X", some "?", some "Y"]
    [some "Z"] (some "") (by decide) (by decide)

/-- A non-blank cell whose raw value is the literal `"?"`: consumed and
dropped, blank counter unchanged. -/
theorem scanRun_qcell (cat : String) (c : Cell) (rest : List Cell) (b : Nat)
    (hnb : cellToStr c ≠ "") (hq : c.getD "" = "?") :
    scanRun cat (c :: rest) b = ((scanRun cat rest b).1, (scanRun cat rest b).2 + 1) := by
  simp only [scanRun]
  rw [if_neg hnb, if_pos hq]

/-- A non-blank cell whose raw value is not the literal `"?"`: consumed
and appended stripped, blank counter unchanged. -/
theorem scanRun_value (cat : String) (c : Cell) (rest : List Cell) (b : Nat)
    (hnb : cellToStr c ≠ "") (hq : ¬ c.getD "" = "?") :
    scanRun cat (c :: rest) b =
      (pyStrip (c.getD "") :: (scanRun cat rest b).1, (scanRun cat rest b).2 + 1) := by
  simp only [scanRun]
  rw [if_neg hnb, if_neg hq]

/-- The table of the C1 scenario: two columns, first column unused, key
column `["Device Name", "Alpha", "", "Coolant", "X", "?", "Y", ""]`. -/
def legendTableC1 : Table :=
  ⟨2, [[none, some "Device Name"], [none, some "Alpha"], [none, some ""],
       [none, some "Coolant"], [none, some "X"], [none, some "?"],
       [none, some "Y"], [none, some ""]]⟩

/-- C1: on the scenario table the parser returns exactly
`{"Device Name" ↦ ["Alpha"], "Coolant" ↦ ["X", "Y"]}`: the `"?"` cell is
dropped and each run ends at its trailing blank. -/
theorem claim_C1_scenario :
    read_legend legendTableC1 = .ok [("Device Name", ["Alpha"]), ("Coolant", ["X", "Y"])] := by
  have h : readLegendLoop 0 legendTableC1.rows [] =
      .ok [("Device Name", ["Alpha"]), ("Coolant", ["X", "Y"])] :=
    readLegendLoop_eval 0 legendTableC1.rows [] _ (by rfl)
  rw [read_legend]
  simpa [legendTableC1] using h

/-- The table refuting C2 as stated: a `"Device Name"` run containing
the cell `" ? "`, whose stripped string is `"?"`. -/
def legendTableC2 : Table :=
  ⟨2, [[none, some "Device Name"], [none, some " ? "], [none, none]]⟩

/-- C2 counterexample: the cell `" ? "` strips to the literal `"?"`, yet
the parser appends it (stripped) to the Option List instead of dropping
it — the source filters on the raw cell value `v != "?"`, not on the
stripped string. -/
theorem claim_C2_counterexample :
    pyStrip " ? " = "?" ∧ read_legend legendTableC2 = .ok [("Device Name", ["?"])] := by
  constructor
  · rfl
  · have h : readLegendLoop 0 legendTableC2.rows [] = .ok [("Device Name", ["?"])] :=
      readLegendLoop_eval 0 legendTableC2.rows [] _ (by rfl)
    rw [read_legend]
    simpa [legendTableC2] using h

/-- C2 (amended): the drop filter compares the raw cell value.  A
non-blank cell whose raw value is exactly `"?"` is excluded from the
Option List wherever it sits in the run (deleting it changes no
collected value), it does not increment the blank counter, and it does
not stop the run (the scan consumes it and continues); every other
non-blank cell — including one that merely strips to `"?"`, such as
`" ? "` — is appended stripped. -/
theorem claim_C2_amended (cat : String) (pre post : List Cell) (b : Nat) (v : String)
    (hnb : pyStrip v ≠ "") (hq : v ≠ "?") :
    (scanRun cat (pre ++ some "?" :: post) b).1 = (scanRun cat (pre ++ post) b).1
    ∧ (scanRun cat (some "?" :: post) b).2 = (scanRun cat post b).2 + 1
    ∧ (scanRun cat (some v :: post) b).1 = pyStrip v :: (scanRun cat post b).1 := by
  have hqnb : cellToStr (some "?") ≠ "" := by decide
  refine ⟨?_, ?_, ?_⟩
  · induction pre generalizing b with
    | nil =>
      simp only [List.nil_append]
      rw [scanRun_qcell cat (some "?") post b hqnb rfl]
    | cons c pre ih =>
      by_cases hbk : cellToStr c = ""
      · by_cases hstop : (b + 1 = 2 ∧ cat ∈ SECOND_BLANK_STOP) ∨ cat ∈ FIRST_BLANK_STOP
        · rw [List.cons_append, List.cons_append,
            scanRun_blank_stop cat c _ b hbk hstop, scanRun_blank_stop cat c _ b hbk hstop]
        · rw [List.cons_append, List.cons_append,
            scanRun_blank_cont cat c _ b hbk hstop, scanRun_blank_cont cat c _ b hbk hstop]
          exact ih (b + 1)
      · by_cases hq2 : c.getD "" = "?"
        · rw [List.cons_append, List.cons_append,
            scanRun_qcell cat c _ b hbk hq2, scanRun_qcell cat c _ b hbk hq2]
          exact ih b
        · rw [List.cons_append, List.cons_append,
            scanRun_value cat c _ b hbk hq2, scanRun_value cat c _ b hbk hq2]
          simp only [List.cons.injEq, true_and]
          exact ih b
  · rw [scanRun_qcell cat (some "?") post b hqnb rfl]
  · have hvnb : cellToStr (some v) ≠ "" := hnb
    have hvq : ¬ (some v).getD "" = "?" := hq
    rw [scanRun_value cat (some v) post b hvnb hvq]
    rfl

/-- Witness for C2 (amended): the cell `" ? "` itself, which strips to
`"?"` but is still appended. -/
theorem claim_C2_amended_witness :
    (scanRun "Coolant" (([some "A"] : List Cell) ++ some "?" :: [some "B"]) 0).1 =
      (scanRun "Coolant" (([some "A"] : List Cell) ++ [some "B"]) 0).1
    ∧ (scanRun "Coolant" (some "?" :: [some "B"]) 0).2 =
      (scanRun "Coolant" [some "B"] 0).2 + 1
    ∧ (scanRun "Coolant" (some " ? " :: [some "B"]) 0).1 =
      pyStrip " ? " :: (scanRun "Coolant" [some "B"] 0).1 :=
  claim_C2_amended "Coolant" [some "A"] [some "B"] 0 " ? " (by decide) (by decide)

/-- C5: a table with fewer than two columns makes the parser fail with
the structural error, producing no mapping. -/
theorem claim_C5_min_columns (t : Table) (h : t.ncols < 2) :
    read_legend t = .error "Sheet must have at least two columns (A and B)." := by
  rw [read_legend, if_pos h]

/-- Witness for C5: a one-column table. -/
theorem claim_C5_witness :
    read_legend ⟨1, [[some "Device Name"], [some "Alpha"]]⟩ =
      .error "Sheet must have at least two columns (A and B)." :=
  claim_C5_min_columns ⟨1, [[some "Device Name"], [some "Alpha"]]⟩ (by decide)

/-- C6: when the outer scan reaches (at absolute row index `i`) a marker
row of a with-abbreviation category none of whose cells strips to
`"Abbreviation"` or `"Abbrevation"`, the parse aborts with the
structural error naming row `i`, and no mapping is returned. -/
theorem claim_C6_missing_abbreviation (i : Nat) (row : List Cell)
    (rest : List (List Cell)) (acc : List (String × List String))
    (hcat : cellToStr (row.getD 1 none) ∈ TARGET_WITH_ABBREVIATION)
    (habb : abbrevIndex? row = none) :
    readLegendLoop i (row :: rest) acc =
      .error ("No 'Abbreviation' column found in row " ++ toString i ++ ".") := by
  rw [readLegendLoop]
  simp only [habb]
  rw [if_pos (Or.inl hcat), if_pos hcat]

/-- Witness for C6: a `"Pump"` marker row with no abbreviation header,
reached at row index 5. -/
theorem claim_C6_witness :
    readLegendLoop 5 [[none, some "Pump"]] [] =
      .error ("No 'Abbreviation' column found in row " ++ toString 5 ++ ".") :=
  claim_C6_missing_abbreviation 5 [none, some "Pump"] [] [] (by decide) (by decide)

/-- Replacing a cell by the misspelled header or by the correct header
yields the same first-match search result, for any start index. -/
theorem findIdx_abbrev_set_eq (l : List Cell) : ∀ (k i : Nat),
    List.findIdx? isAbbrevHeader (l.set k (some "Abbrevation")) i =
      List.findIdx? isAbbrevHeader (l.set k (some "Abbreviation")) i := by
  induction l with
  | nil => intro k i; rfl
  | cons a l ih =>
    intro k i
    match k with
    | 0 =>
      simp only [List.set_cons_zero, List.findIdx?_cons]
      rfl
    | k + 1 =>
      simp only [List.set_cons_succ, List.findIdx?_cons]
      rw [ih k (i + 1)]

/-- A header cell placed after a stretch of non-header cells is found at
its own position, for any start index. -/
theorem findIdx_abbrev_first (pre : List Cell) : ∀ (post : List Cell) (c : Cell) (i : Nat),
    (∀ x ∈ pre, isAbbrevHeader x = false) → isAbbrevHeader c = true →
    List.findIdx? isAbbrevHeader (pre ++ c :: post) i = some (i + pre.length) := by
  induction pre with
  | nil =>
    intro post c i _ hc
    simp [List.findIdx?_cons, hc]
  | cons a pre ih =>
    intro post c i hpre hc
    have ha : isAbbrevHeader a = false := hpre a (by simp)
    simp only [List.cons_append, List.findIdx?_cons, ha, Bool.false_eq_true, if_false]
    rw [ih post c (i + 1) (fun x hx => hpre x (by simp [hx])) hc]
    simp only [List.length_cons]
    congr 1
    omega

/-- C7: the misspelling `"Abbrevation"` selects the same value column as
the correct spelling `"Abbreviation"`: swapping one spelling for the
other anywhere in a marker row never changes the search result, and when
the row is a stretch of non-header cells followed by either spelling,
the selected column is exactly that cell's position (the first match). -/
theorem claim_C7_misspelled_header (row : List Cell) (k : Nat) (pre post : List Cell)
    (hpre : ∀ x ∈ pre, isAbbrevHeader x = false) :
    abbrevIndex? (row.set k (some "Abbrevation")) =
      abbrevIndex? (row.set k (some "Abbreviation"))
    ∧ abbrevIndex? (pre ++ some "Abbrevation" :: post) = some pre.length
    ∧ abbrevIndex? (pre ++ some "Abbreviation" :: post) = some pre.length := by
  refine ⟨findIdx_abbrev_set_eq row k 0, ?_, ?_⟩
  · have h := findIdx_abbrev_first pre post (some "Abbrevation") 0 hpre (by decide)
    rw [abbrevIndex?, h]
    simp
  · have h := findIdx_abbrev_first pre post (some "Abbreviation") 0 hpre (by decide)
    rw [abbrevIndex?, h]
    simp

/-- Witness for C7 on a concrete marker row. -/
theorem claim_C7_witness :
    abbrevIndex? (([some "x", some "Pump", none] : List Cell).set 2 (some "Abbrevation")) =
      abbrevIndex? (([some "x", some "Pump", none] : List Cell).set 2 (some "Abbreviation"))
    ∧ abbrevIndex? (([some "x", some "Pump"] : List Cell) ++ some "Abbrevation" :: [none]) =
      some ([some "x", some "Pump"] : List Cell).length
    ∧ abbrevIndex? (([some "x", some "Pump"] : List Cell) ++ some "Abbreviation" :: [none]) =
      some ([some "x", some "Pump"] : List Cell).length :=
  claim_C7_misspelled_header [some "x", some "Pump", none] 2 [some "x", some "Pump"] [none]
    (by decide)

/-- Pulling a ready prefix out of the `String.intercalate` accumulator. -/
theorem intercalate_go_append (s : String) (l : List String) : ∀ a b : String,
    String.intercalate.go (a ++ b) s l = a ++ String.intercalate.go b s l := by
  induction l with
  | nil => intro a b; simp [String.intercalate.go]
  | cons c l ih =>
    intro a b
    simp only [String.intercalate.go]
    rw [show a ++ b ++ s ++ c = a ++ (b ++ s ++ c) by
        rw [String.append_assoc, String.append_assoc, String.append_assoc]]
    exact ih a (b ++ s ++ c)

/-- Unfolding `String.intercalate` one element at a time. -/
theorem intercalate_cons_of_ne_nil (s x : String) (l : List String) (h : l ≠ []) :
    String.intercalate s (x :: l) = x ++ s ++ String.intercalate s l := by
  match l, h with
  | b :: l', _ =>
    show String.intercalate.go x s (b :: l') = x ++ s ++ String.intercalate.go b s l'
    simp only [String.intercalate.go]
    exact intercalate_go_append s l' (x ++ s) b

/-- C8: the folder name is the underscore-join of the selections in
their given order, then the stripped time token, then the stripped
server token: each selection contributes itself plus an underscore in
front of the rest, the empty selection list leaves exactly
`time_stripped ++ "_" ++ server_stripped`, and the scenario inputs
produce `"Alpha_X_2025-07-23_14-00_Server01"`. -/
theorem claim_C8_folder_name :
    (∀ (x : String) (sels : List String) (t s : String),
      create_folder_name (x :: sels) t s = x ++ "_" ++ create_folder_name sels t s)
    ∧ (∀ t s : String, create_folder_name [] t s = pyStrip t ++ "_" ++ pyStrip s)
    ∧ create_folder_name ["Alpha", "X"] " 2025-07-23_14-00 " "Server01 " =
        "Alpha_X_2025-07-23_14-00_Server01" := by
  refine ⟨?_, ?_, ?_⟩
  · intro x sels t s
    rw [create_folder_name, create_folder_name, List.cons_append]
    exact intercalate_cons_of_ne_nil "_" x (sels ++ [pyStrip t, pyStrip s]) (by simp)
  · intro t s
    rw [create_folder_name]
    rfl
  · rfl

/-- A key is in the dict after insertion iff it is the inserted key or
was already present. -/
theorem dictInsert_mem_keys (k a : String) (v : List String)
    (d : List (String × List String)) :
    a ∈ (dictInsert d k v).map Prod.fst ↔ a = k ∨ a ∈ d.map Prod.fst := by
  induction d with
  | nil => simp [dictInsert]
  | cons p rest ih =>
    obtain ⟨k', v'⟩ := p
    by_cases h : k' = k
    · subst h
      simp [dictInsert]
    · simp only [dictInsert, if_neg h, List.map_cons, List.mem_cons, ih]
      tauto

/-- Insertion keeps the keys of the dict free of duplicates. -/
theorem dictInsert_keys_nodup (k : String) (v : List String)
    (d : List (String × List String)) (h : (d.map Prod.fst).Nodup) :
    ((dictInsert d k v).map Prod.fst).Nodup := by
  induction d with
  | nil => simp [dictInsert]
  | cons p rest ih =>
    obtain ⟨k', v'⟩ := p
    simp only [List.map_cons, List.nodup_cons] at h
    by_cases hk : k' = k
    · subst hk
      simpa [dictInsert] using h
    · simp only [dictInsert, if_neg hk, List.map_cons, List.nodup_cons]
      refine ⟨fun hmem => ?_, ih h.2⟩
      rw [dictInsert_mem_keys] at hmem
      rcases hmem with rfl | hmem
      · exact hk rfl
      · exact h.1 hmem

/-- Looking up the inserted key returns the newly stored value: plain
overwrite, no merging. -/
theorem dictInsert_lookup_self (k : String) (v : List String)
    (d : List (String × List String)) :
    (dictInsert d k v).lookup k = some v := by
  induction d with
  | nil => simp [dictInsert, List.lookup]
  | cons p rest ih =>
    obtain ⟨k', v'⟩ := p
    by_cases h : k' = k
    · subst h
      simp [dictInsert, List.lookup]
    · have hb : (k == k') = false := beq_eq_false_iff_ne.mpr fun he => h he.symm
      simp only [dictInsert, if_neg h, List.lookup, hb]
      exact ih

/-- Insertion leaves every other key's value unchanged. -/
theorem dictInsert_lookup_other (k k' : String) (v : List String)
    (d : List (String × List String)) (h : k' ≠ k) :
    (dictInsert d k v).lookup k' = d.lookup k' := by
  have hb : (k' == k) = false := beq_eq_false_iff_ne.mpr h
  induction d with
  | nil => simp [dictInsert, List.lookup, hb]
  | cons p rest ih =>
    obtain ⟨k'', v''⟩ := p
    by_cases hk : k'' = k
    · subst hk
      simp only [dictInsert, if_pos rfl, List.lookup, hb]
    · simp only [dictInsert, if_neg hk, List.lookup]
      by_cases he : k' = k''
      · subst he
        simp only [beq_self_eq_true]
      · have hb2 : (k' == k'') = false := beq_eq_false_iff_ne.mpr he
        simp only [hb2]
        exact ih

/-- Invariant of the outer loop: starting from a duplicate-free results
dict, a successful parse returns a duplicate-free results dict. -/
theorem readLegendLoop_nodup (i : Nat) (rows : List (List Cell))
    (acc : List (String × List String)) :
    ∀ res, (acc.map Prod.fst).Nodup → readLegendLoop i rows acc = .ok res →
      (res.map Prod.fst).Nodup := by
  induction i, rows, acc using readLegendLoop.induct with
  | case1 i acc =>
    intro res h heq
    rw [readLegendLoop] at heq
    cases heq
    exact h
  | case2 i acc row rest cs h1 h2 habb =>
    intro res h heq
    rw [readLegendLoop] at heq
    rw [if_pos h1, if_pos h2] at heq
    simp only [habb] at heq
    cases heq
  | case3 i acc row rest cs h1 h2 useCol habb r ih =>
    intro res h heq
    rw [readLegendLoop] at heq
    rw [if_pos h1, if_pos h2] at heq
    simp only [habb] at heq
    exact ih res (dictInsert_keys_nodup _ _ _ h) heq
  | case4 i acc row rest cs h1 h2 r ih =>
    intro res h heq
    rw [readLegendLoop] at heq
    rw [if_pos h1, if_neg h2] at heq
    exact ih res (dictInsert_keys_nodup _ _ _ h) heq
  | case5 i acc row rest cs h1 h2 ih =>
    intro res h heq
    rw [readLegendLoop] at heq
    rw [if_neg h1, if_pos h2] at heq
    exact ih res h heq
  | case6 i acc row rest cs h1 h2 ih =>
    intro res h heq
    rw [readLegendLoop] at heq
    rw [if_neg h1, if_neg h2] at heq
    exact ih res h heq

/-- The duplicate-marker table for C9: the marker `"Coolant"` appears
twice in the key column, with run `["A"]` then run `["B"]`. -/
def legendTableC9 : Table :=
  ⟨2, [[none, some "Coolant"], [none, some "A"], [none, none],
       [none, some "Coolant"], [none, some "B"], [none, none]]⟩

/-- C9: keys of the returned mapping are unique (every successful parse
yields a duplicate-free key list); storing a run is plain key overwrite
(the lookup of the stored key is the newly collected list and every
other key is untouched); and on a table where `"Coolant"` occurs twice
the result has exactly the one entry collected at the last occurrence. -/
theorem claim_C9_overwrite :
    (∀ (t : Table) (res : List (String × List String)),
      read_legend t = .ok res → (res.map Prod.fst).Nodup)
    ∧ (∀ (d : List (String × List String)) (k k' : String) (v : List String), k' ≠ k →
        (dictInsert d k v).lookup k = some v
        ∧ (dictInsert d k v).lookup k' = d.lookup k')
    ∧ read_legend legendTableC9 = .ok [("Coolant", ["B"])] := by
  refine ⟨?_, ?_, ?_⟩
  · intro t res heq
    rw [read_legend] at heq
    split at heq
    · cases heq
    · exact readLegendLoop_nodup 0 t.rows [] res (by simp) heq
  · intro d k k' v hne
    exact ⟨dictInsert_lookup_self k v d, dictInsert_lookup_other k k' v d hne⟩
  · have h : readLegendLoop 0 legendTableC9.rows [] = .ok [("Coolant", ["B"])] :=
      readLegendLoop_eval 0 legendTableC9.rows [] _ (by rfl)
    rw [read_legend]
    simpa [legendTableC9] using h

/-- Witness for C9 on concrete inputs. -/
theorem claim_C9_witness :
    (([("Coolant", ["B"])] : List (String × List String)).map Prod.fst).Nodup
    ∧ (dictInsert [("Coolant", ["A"])] "Coolant" ["B"]).lookup "Coolant" = some ["B"]
    ∧ (dictInsert [("Coolant", ["A"])] "Coolant" ["B"]).lookup "Device Name" =
        ([("Coolant", ["A"])] : List (String × List String)).lookup "Device Name" := by
  refine ⟨?_, ?_, ?_⟩
  · exact claim_C9_overwrite.1 legendTableC9 [("Coolant", ["B"])] claim_C9_overwrite.2.2
  · exact (claim_C9_overwrite.2.1 [("Coolant", ["A"])] "Coolant" "Device Name" ["B"]
      (by decide)).1
  · exact (claim_C9_overwrite.2.1 [("Coolant", ["A"])] "Coolant" "Device Name" ["B"]
      (by decide)).2

/-- C10: the parser terminates on every finite table.  The inner scan
never consumes more cells than follow the marker row, so a recognized
category advances the outer cursor by `1 + consumed ≥ 1` rows and every
other row advances it by exactly one; hence the fuel-bounded outer loop
with `rows.length + 1` iterations never runs out of fuel and agrees with
`readLegendLoop` on every input. -/
theorem claim_C10_termination :
    (∀ (cat : String) (cells : List Cell) (b : Nat), (scanRun cat cells b).2 ≤ cells.length)
    ∧ (∀ (i : Nat) (rows : List (List Cell)) (acc : List (String × List String)),
        readLegendLoopFuel (rows.length + 1) i rows acc = some (readLegendLoop i rows acc)) := by
  constructor
  · intro cat cells
    induction cells with
    | nil =>
      intro b
      simp [scanRun]
    | cons c rest ih =>
      intro b
      by_cases hbk : cellToStr c = ""
      · by_cases hstop : (b + 1 = 2 ∧ cat ∈ SECOND_BLANK_STOP) ∨ cat ∈ FIRST_BLANK_STOP
        · rw [scanRun_blank_stop cat c rest b hbk hstop]
          simp
        · rw [scanRun_blank_cont cat c rest b hbk hstop]
          have := ih (b + 1)
          simp only [List.length_cons]
          omega
      · by_cases hq : c.getD "" = "?"
        · rw [scanRun_qcell cat c rest b hbk hq]
          have := ih b
          simp only [List.length_cons]
          omega
        · rw [scanRun_value cat c rest b hbk hq]
          have := ih b
          simp only [List.length_cons]
          omega
  · intro i rows acc
    exact readLegendLoopFuel_eq (rows.length + 1) rows i acc (by omega)
